import Mathlib

/-!
Shallow embedding of the dashboard voucher forms and views of this
repository (src/oscar/apps/dashboard/vouchers/forms.py and views.py),
together with proofs of the behavioural claims about voucher validation,
voucher set synchronization and the voucher list view.

Datetimes are modelled as integers, entity references as natural-number
ids, and the relational store as explicit lists of records.  Collaborators
that are not part of the two supplied source files (the code generator
get_unused_code, the VoucherSet.update_count recount and sort_queryset)
are modelled from the spec; their doc comments say so.
-/

/-- A persisted voucher row.  The fields follow the data model of the spec
and the field accesses made by forms.py and views.py; the counters
num_basket_additions and num_orders are the sort annotations named in the
allow-list of the list views. -/
structure Voucher where
  id : Nat
  name : String
  code : String
  usage : String
  start_datetime : Int
  end_datetime : Int
  date_created : Int
  voucher_set : Option Nat
  offers : List Nat
  num_basket_additions : Nat
  num_orders : Nat
deriving DecidableEq

/-- A persisted voucher set row.  count is the desired number of child
vouchers, num_vouchers the denormalized actual count. -/
structure VoucherSet where
  id : Nat
  name : String
  code_length : Nat
  description : String
  start_datetime : Int
  end_datetime : Int
  count : Nat
  num_vouchers : Nat
deriving DecidableEq

/-- The relational store: all voucher rows, all voucher set rows and the
autoincrement counters handing out fresh primary keys. -/
structure Store where
  vouchers : List Voucher
  sets : List VoucherSet
  next_id : Nat
  next_set_id : Nat
deriving DecidableEq

/-- The validation and synchronization failures of the error taxonomy of
the spec that are reachable in this subsystem. -/
inductive FormError where
  | duplicateName
  | emptyCode
  | duplicateCode
  | invalidDateRange
  | countDecrease
  | codeGenerationFailed
deriving DecidableEq

/-- The number of vouchers owned by the set with id sid. -/
def ownedCount (st : Store) (sid : Nat) : Nat :=
  st.vouchers.countP (fun v => decide (v.voucher_set = some sid))

/-- The recount invariant of the spec: the denormalized num_vouchers of
every set equals the actual number of vouchers owned by it. -/
def countInvariant (st : Store) : Prop :=
  ∀ s ∈ st.sets, s.num_vouchers = ownedCount st s.id

/-- The store a client observes after a request whose mutating handler ran
inside a transaction: the new store on success, the unchanged original on
error. -/
def observableAfter {ε : Type} (r : Except ε Store) (st : Store) : Store :=
  match r with
  | .ok st1 => st1
  | .error _ => st

/-- The whitespace characters removed by the Python str.strip used on the
embedded ASCII strings. -/
def isPySpace (c : Char) : Bool :=
  c == ' ' || c == '\t' || c == '\n' || c == '\r' || c == '\x0b' || c == '\x0c'

/-- Python str.strip on the embedded strings: drop leading and trailing
whitespace. -/
def stripString (s : String) : String :=
  ⟨((s.data.dropWhile isPySpace).reverse.dropWhile isPySpace).reverse⟩

/-- Python str.upper on the embedded ASCII strings. -/
def upperString (s : String) : String :=
  ⟨s.data.map Char.toUpper⟩

/-- Python str.lower on the embedded ASCII strings. -/
def lowerString (s : String) : String :=
  ⟨s.data.map Char.toLower⟩

/-- The code normalization of VoucherForm.clean_code (forms.py line 55):
code.strip().upper(). -/
def normalize_code (code : String) : String :=
  upperString (stripString code)

/-- VoucherForm.clean_name (forms.py lines 42-52): fail when a voucher
other than the one being edited already carries this name.  The name
argument is the CharField-stripped submitted value. -/
def clean_name (st : Store) (editing : Option Nat) (name : String) : Option FormError :=
  match st.vouchers.find? (fun v => decide (v.name = name)) with
  | none => none
  | some v =>
    match editing with
    | none => some .duplicateName
    | some eid => if v.id = eid then none else some .duplicateName

/-- VoucherForm.clean_code (forms.py lines 54-66): strip and upper-case the
submitted code, fail on an empty result, fail when a voucher other than
the one being edited already carries the normalized code, and otherwise
return the normalized code. -/
def clean_code (st : Store) (editing : Option Nat) (code : String) : Except FormError String :=
  let c := normalize_code code
  if c = "" then .error .emptyCode
  else
    match st.vouchers.find? (fun v => decide (v.code = c)) with
    | none => .ok c
    | some v =>
      match editing with
      | none => .error .duplicateCode
      | some eid => if v.id = eid then .ok c else .error .duplicateCode

/-- VoucherForm.clean (forms.py lines 68-75): the date range check. -/
def clean_date_range (start_datetime end_datetime : Int) : Option FormError :=
  if end_datetime < start_datetime then some .invalidDateRange else none

/-- All validation errors of a bound VoucherForm on the given raw inputs:
field cleaning of name (stripped by the CharField) and code, then the form
level date range check, as collected by the form machinery. -/
def voucherFormErrors (st : Store) (editing : Option Nat) (name code : String)
    (start_datetime end_datetime : Int) : List FormError :=
  (clean_name st editing (stripString name)).toList ++
  (match clean_code st editing code with
   | .ok _ => []
   | .error e => [e]) ++
  (clean_date_range start_datetime end_datetime).toList

/-- VoucherCreateView.form_valid (views.py lines 103-113) guarded by form
validation: an invalid form never reaches the create, a valid form creates
one voucher from the cleaned data with no owning set. -/
def voucherCreateSubmit (st : Store) (name code usage : String)
    (start_datetime end_datetime : Int) (offers : List Nat) (now : Int) :
    Except (List FormError) Store :=
  match voucherFormErrors st none name code start_datetime end_datetime with
  | [] =>
    let v : Voucher :=
      { id := st.next_id, name := stripString name, code := normalize_code code, usage := usage,
        start_datetime := start_datetime, end_datetime := end_datetime,
        date_created := now, voucher_set := none, offers := offers,
        num_basket_additions := 0, num_orders := 0 }
    .ok { st with vouchers := st.vouchers ++ [v], next_id := st.next_id + 1 }
  | errs => .error errs

/-- The data of a bound VoucherSetForm: the model fields of the Meta class
plus the extra usage and offers form fields. -/
structure VoucherSetFormData where
  name : String
  code_length : Nat
  description : String
  start_datetime : Int
  end_datetime : Int
  count : Nat
  usage : String
  offers : List Nat
deriving DecidableEq

/-- The alphabet generated voucher codes are drawn from.  The concrete
characters are a modelling choice; any fixed alphabet of distinct
characters works. -/
def codeAlphabet : List Char :=
  "ABCDEFGHJKLMNPQRSTUVWXYZ23456789".toList

/-- All candidate codes of a given length over codeAlphabet. -/
def codesOfLength : Nat → List String
  | 0 => [""]
  | n + 1 => (codesOfLength n).flatMap (fun s => codeAlphabet.map (fun c => s.push c))

/-- Modelled from the spec: get_unused_code (oscar.apps.voucher.utils, not
among the supplied sources) produces a voucher code of the desired length
that is not already in use, retrying until it finds one.  It is modelled
deterministically as the first candidate of the desired length whose code
is not among the codes in use, returning none when the code space of the
requested length is exhausted. -/
def get_unused_code (len : Nat) (used : List String) : Option String :=
  (codesOfLength len).find? (fun c => !used.contains c)

/-- Modelled from the spec: VoucherSet.update_count (the voucher models,
not among the supplied sources) recomputes and persists the denormalized
num_vouchers field of the set as the actual number of owned vouchers. -/
def update_count (st : Store) (sid : Nat) : Store :=
  { st with sets := st.sets.map (fun s =>
      if s.id = sid then { s with num_vouchers := ownedCount st sid } else s) }

/-- VoucherSetForm.clean_count (forms.py lines 113-120): when editing an
existing set, reject a desired count below the stored count field of the
loaded instance. -/
def clean_count (st : Store) (pk : Option Nat) (data : Nat) : Option FormError :=
  match pk with
  | none => none
  | some p =>
    match st.sets.find? (fun s => decide (s.id = p)) with
    | none => none
    | some inst => if data < inst.count then some .countDecrease else none

/-- The ModelForm super().save() step of VoucherSetForm.save (forms.py
line 124): persist the form fields onto the set row, inserting a new row
when none with this id exists (num_vouchers of a fresh row starts at 0). -/
def upsertSet (st : Store) (sid : Nat) (d : VoucherSetFormData) : Store :=
  if st.sets.any (fun s => decide (s.id = sid)) then
    { st with sets := st.sets.map (fun s =>
        if s.id = sid then
          { s with name := d.name, code_length := d.code_length,
                   description := d.description,
                   start_datetime := d.start_datetime,
                   end_datetime := d.end_datetime, count := d.count }
        else s) }
  else
    { st with
      sets := st.sets ++ [{ id := sid, name := d.name, code_length := d.code_length,
                            description := d.description,
                            start_datetime := d.start_datetime,
                            end_datetime := d.end_datetime,
                            count := d.count, num_vouchers := 0 }],
      next_set_id := st.next_set_id + 1 }

/-- The per-voucher overwrite of VoucherSetForm.save (forms.py lines
129-136): instance.vouchers.update of name, usage and the date range
together with offers.set on every owned voucher; vouchers outside the set
are untouched. -/
def syncVoucherFields (sid : Nat) (d : VoucherSetFormData) (v : Voucher) : Voucher :=
  if v.voucher_set = some sid then
    { v with name := d.name, usage := d.usage,
             start_datetime := d.start_datetime, end_datetime := d.end_datetime,
             offers := d.offers }
  else v

/-- The update pass of VoucherSetForm.save applied to the whole store. -/
def updateSetVouchers (st : Store) (sid : Nat) (d : VoucherSetFormData) : Store :=
  { st with vouchers := st.vouchers.map (syncVoucherFields sid d) }

/-- The creation loop of VoucherSetForm.save (forms.py lines 138-147):
create one voucher per missing slot, each with a freshly generated code of
length code_length, the fields of the set, the offers of the form and a
back-reference to the set.  Returns the store as written so far together
with an error when the code generator fails. -/
def createVouchers (sid : Nat) (d : VoucherSetFormData) (now : Int) :
    Nat → Store → Store × Option FormError
  | 0, st => (st, none)
  | n + 1, st =>
    match get_unused_code d.code_length (st.vouchers.map (fun v => v.code)) with
    | none => (st, some .codeGenerationFailed)
    | some c =>
      let v : Voucher :=
        { id := st.next_id, name := d.name, code := c, usage := d.usage,
          start_datetime := d.start_datetime, end_datetime := d.end_datetime,
          date_created := now, voucher_set := some sid, offers := d.offers,
          num_basket_additions := 0, num_orders := 0 }
      createVouchers sid d now n
        { st with vouchers := st.vouchers ++ [v], next_id := st.next_id + 1 }

/-- The body of VoucherSetForm.save (forms.py lines 122-150) run without
the surrounding transaction: persist the set row, overwrite the owned
vouchers, create the missing ones and, when any were added, recount.
Returns the store as written so far together with the error, if any,
raised partway through. -/
def voucherSetSaveBody (st : Store) (sid : Nat) (d : VoucherSetFormData) (now : Int) :
    Store × Option FormError :=
  let st1 := updateSetVouchers (upsertSet st sid d) sid d
  let toAdd := d.count - ownedCount st1 sid
  match createVouchers sid d now toAdd st1 with
  | (st2, some e) => (st2, some e)
  | (st2, none) => if 0 < toAdd then (update_count st2 sid, none) else (st2, none)

/-- VoucherSetForm.save under its transaction.atomic decorator: the writes
of the body become visible only when the body finishes without error;
otherwise the transaction rolls back and the error propagates. -/
def voucherSetFormSave (st : Store) (sid : Nat) (d : VoucherSetFormData) (now : Int) :
    Except FormError Store :=
  match voucherSetSaveBody st sid d now with
  | (st1, none) => .ok st1
  | (_, some e) => .error e

/-- Submitting the voucher set form: field validation (clean_count) runs
first and an invalid form never reaches save; on a valid form the atomic
save runs.  pk is the primary key of the instance being edited, none when
creating a new set, which then receives the fresh id. -/
def voucherSetFormSubmit (st : Store) (pk : Option Nat) (d : VoucherSetFormData) (now : Int) :
    Except FormError Store :=
  match clean_count st pk d.count with
  | some e => .error e
  | none =>
    match pk with
    | some p => voucherSetFormSave st p d now
    | none => voucherSetFormSave st st.next_set_id d now

/-- VoucherDeleteView.delete (views.py lines 196-201): delete the voucher
row and, when it belonged to a set, recount that set; all of it inside one
transaction. -/
def voucherDelete (st : Store) (vid : Nat) : Store :=
  match st.vouchers.find? (fun v => decide (v.id = vid)) with
  | none => st
  | some v =>
    let st1 := { st with vouchers := st.vouchers.filter (fun w => !decide (w.id = vid)) }
    match v.voucher_set with
    | some sid => update_count st1 sid
    | none => st1

/-- Helper for the icontains lookup: does the second character list
contain the first as a contiguous run. -/
def charsContain (needle : List Char) : List Char → Bool
  | [] => needle.isEmpty
  | c :: rest => needle.isPrefixOf (c :: rest) || charsContain needle rest

/-- The case-insensitive substring test behind the name__icontains filter. -/
def icontains (hay needle : String) : Bool :=
  charsContain (lowerString needle).data (lowerString hay).data

/-- A voucher list request: hasParams is whether request.GET carries any
query parameters at all, the next four fields are the raw search form
inputs and sort is the sort query parameter. -/
structure VoucherListRequest where
  hasParams : Bool
  name : String
  code : String
  is_active : Option Bool
  in_set : Option Bool
  sort : Option String
deriving DecidableEq

/-- The sortable-field allow-list of VoucherListView.get_queryset
(views.py lines 36-39). -/
def voucherSortFields : List String :=
  ["num_basket_additions", "num_orders", "date_created"]

/-- The value a voucher row is compared by under a given sort key. -/
def sortKeyVal (k : String) (v : Voucher) : Int :=
  if k = "num_basket_additions" then (v.num_basket_additions : Int)
  else if k = "num_orders" then (v.num_orders : Int)
  else v.date_created

/-- Descending order of two voucher rows under a given sort key. -/
def voucherGE (k : String) (a b : Voucher) : Prop :=
  sortKeyVal k b ≤ sortKeyVal k a

instance (k : String) : DecidableRel (voucherGE k) :=
  fun a b => inferInstanceAs (Decidable (sortKeyVal k b ≤ sortKeyVal k a))

instance (k : String) : IsTotal Voucher (voucherGE k) :=
  ⟨fun a b => le_total (sortKeyVal k b) (sortKeyVal k a)⟩

instance (k : String) : IsTrans Voucher (voucherGE k) :=
  ⟨fun _ _ _ h1 h2 => le_trans h2 h1⟩

/-- Modelled from the spec: sort_queryset (oscar.views, not among the
supplied sources) orders the result by the sort query parameter when it is
one of the allow-listed fields, descending, and otherwise falls back to
the supplied default ordering, here descending date_created. -/
def sort_queryset (l : List Voucher) (sortParam : Option String) : List Voucher :=
  match sortParam with
  | some k =>
    if voucherSortFields.contains k then List.insertionSort (voucherGE k) l
    else List.insertionSort (voucherGE "date_created") l
  | none => List.insertionSort (voucherGE "date_created") l

/-- VoucherListView.get_queryset (views.py lines 34-75).  The search form
fields are all optional CharFields and NullBooleanFields, so form
validation always succeeds and the cleaned values are the stripped name,
the stripped upper-cased code and the two tri-state flags. -/
def voucherListQueryset (st : Store) (req : VoucherListRequest) (now : Int) : List Voucher :=
  let qs0 := sort_queryset (List.insertionSort (voucherGE "date_created") st.vouchers) req.sort
  if req.hasParams then
    let nameData := stripString req.name
    let codeData := upperString (stripString req.code)
    let qs1 := if nameData = "" then qs0 else qs0.filter (fun v => icontains v.name nameData)
    let qs2 := if codeData = "" then qs1 else qs1.filter (fun v => decide (v.code = codeData))
    let qs3 :=
      match req.is_active with
      | none => qs2
      | some true => qs2.filter (fun v => decide (v.start_datetime ≤ now ∧ now ≤ v.end_datetime))
      | some false => qs2.filter (fun v => decide (v.end_datetime < now))
    match req.in_set with
    | none => qs3
    | some b => qs3.filter (fun v => v.voucher_set.isSome == b)
  else
    qs0.filter (fun v => v.voucher_set.isNone)

/-! ### Helper lemmas about the synchronizer pieces -/

theorem vouchers_upsertSet (st : Store) (sid : Nat) (d : VoucherSetFormData) :
    (upsertSet st sid d).vouchers = st.vouchers := by
  unfold upsertSet
  split <;> rfl

theorem syncVoucherFields_voucher_set (sid : Nat) (d : VoucherSetFormData) (v : Voucher) :
    (syncVoucherFields sid d v).voucher_set = v.voucher_set := by
  unfold syncVoucherFields
  split <;> rfl

theorem syncVoucherFields_code (sid : Nat) (d : VoucherSetFormData) (v : Voucher) :
    (syncVoucherFields sid d v).code = v.code := by
  unfold syncVoucherFields
  split <;> rfl

theorem syncVoucherFields_id (sid : Nat) (d : VoucherSetFormData) (v : Voucher) :
    (syncVoucherFields sid d v).id = v.id := by
  unfold syncVoucherFields
  split <;> rfl

theorem vouchers_updateSetVouchers (st : Store) (sid : Nat) (d : VoucherSetFormData) :
    (updateSetVouchers st sid d).vouchers = st.vouchers.map (syncVoucherFields sid d) := rfl

theorem sets_updateSetVouchers (st : Store) (sid : Nat) (d : VoucherSetFormData) :
    (updateSetVouchers st sid d).sets = st.sets := rfl

theorem ownedCount_updateSetVouchers (st : Store) (sid : Nat) (d : VoucherSetFormData) (x : Nat) :
    ownedCount (updateSetVouchers st sid d) x = ownedCount st x := by
  unfold ownedCount
  rw [vouchers_updateSetVouchers, List.countP_map]
  refine List.countP_congr (fun v _ => ?_)
  simp [Function.comp, syncVoucherFields_voucher_set]

theorem map_code_updateSetVouchers (st : Store) (sid : Nat) (d : VoucherSetFormData) :
    (updateSetVouchers st sid d).vouchers.map (fun v => v.code) =
      st.vouchers.map (fun v => v.code) := by
  rw [vouchers_updateSetVouchers, List.map_map]
  refine List.map_congr_left (fun v _ => ?_)
  simp [Function.comp, syncVoucherFields_code]

theorem vouchers_update_count (st : Store) (sid : Nat) :
    (update_count st sid).vouchers = st.vouchers := rfl

theorem ownedCount_update_count (st : Store) (sid x : Nat) :
    ownedCount (update_count st sid) x = ownedCount st x := rfl

theorem sets_update_count (st : Store) (sid : Nat) :
    (update_count st sid).sets = st.sets.map (fun s =>
      if s.id = sid then { s with num_vouchers := ownedCount st sid } else s) := rfl

theorem length_of_mem_codesOfLength : ∀ (n : Nat) (s : String), s ∈ codesOfLength n → s.length = n
  | 0, s, h => by
    simp only [codesOfLength, List.mem_singleton] at h
    subst h
    rfl
  | n + 1, s, h => by
    simp only [codesOfLength, List.mem_flatMap, List.mem_map] at h
    obtain ⟨t, ht, c, _, rfl⟩ := h
    rw [String.length_push, length_of_mem_codesOfLength n t ht]

theorem get_unused_code_spec {len : Nat} {used : List String} {c : String}
    (h : get_unused_code len used = some c) :
    c.length = len ∧ ¬ c ∈ used := by
  unfold get_unused_code at h
  have hm := List.mem_of_find?_eq_some h
  have hp := List.find?_some h
  refine ⟨length_of_mem_codesOfLength len c hm, ?_⟩
  simp_all

theorem createVouchers_ok (sid : Nat) (d : VoucherSetFormData) (now : Int) :
    ∀ (n : Nat) (st st1 : Store), createVouchers sid d now n st = (st1, none) →
      st1.sets = st.sets ∧
      ∃ new, st1.vouchers = st.vouchers ++ new ∧ new.length = n ∧
        (∀ w ∈ new, w.voucher_set = some sid ∧ w.name = d.name ∧ w.usage = d.usage ∧
          w.start_datetime = d.start_datetime ∧ w.end_datetime = d.end_datetime ∧
          w.offers = d.offers ∧ w.code.length = d.code_length ∧
          ¬ w.code ∈ st.vouchers.map (fun v => v.code)) ∧
        (new.map (fun v => v.code)).Nodup
  | 0, st, st1, h => by
    simp only [createVouchers, Prod.mk.injEq] at h
    refine ⟨h.1 ▸ rfl, [], by simp [h.1], rfl, by simp, by simp⟩
  | n + 1, st, st1, h => by
    simp only [createVouchers] at h
    cases hg : get_unused_code d.code_length (st.vouchers.map (fun v => v.code)) with
    | none => rw [hg] at h; simp at h
    | some c =>
      rw [hg] at h
      simp only at h
      obtain ⟨hlen, hfresh⟩ := get_unused_code_spec hg
      obtain ⟨hsets, new1, hv, hlen1, hprops, hnd⟩ := createVouchers_ok sid d now n _ st1 h
      refine ⟨hsets, (⟨st.next_id, d.name, c, d.usage, d.start_datetime, d.end_datetime,
          now, some sid, d.offers, 0, 0⟩ : Voucher) :: new1, ?_, by simp [hlen1], ?_, ?_⟩
      · simpa using hv
      · intro w hw
        rcases List.mem_cons.mp hw with rfl | hw1
        · exact ⟨rfl, rfl, rfl, rfl, rfl, rfl, hlen, hfresh⟩
        · obtain ⟨h1, h2, h3, h4, h5, h6, h7, h8⟩ := hprops w hw1
          refine ⟨h1, h2, h3, h4, h5, h6, h7, fun hc => h8 ?_⟩
          simpa using Or.inl hc
      · rw [List.map_cons, List.nodup_cons]
        refine ⟨fun hc => ?_, hnd⟩
        obtain ⟨w, hw1, hw2⟩ := List.mem_map.mp hc
        obtain ⟨-, -, -, -, -, -, -, h8⟩ := hprops w hw1
        refine h8 ?_
        rw [hw2]
        simp

theorem ownedCount_upsertSet (st : Store) (sid : Nat) (d : VoucherSetFormData) (x : Nat) :
    ownedCount (upsertSet st sid d) x = ownedCount st x := by
  unfold ownedCount
  rw [vouchers_upsertSet]

theorem exists_set_upsertSet (st : Store) (sid : Nat) (d : VoucherSetFormData) :
    ∃ s1 ∈ (upsertSet st sid d).sets, s1.id = sid := by
  unfold upsertSet
  by_cases ha : st.sets.any (fun s => decide (s.id = sid)) = true
  · rw [if_pos ha]
    obtain ⟨e, he, hp⟩ := List.any_eq_true.mp ha
    simp only [decide_eq_true_eq] at hp
    refine ⟨_, List.mem_map.mpr ⟨e, he, rfl⟩, ?_⟩
    rw [if_pos hp]
    exact hp
  · rw [if_neg ha]
    exact ⟨_, List.mem_append_right _ (List.mem_singleton_self _), rfl⟩

theorem mem_sets_upsertSet {st : Store} {sid : Nat} {d : VoucherSetFormData} {s1 : VoucherSet}
    (h : s1 ∈ (upsertSet st sid d).sets) :
    (¬ s1.id = sid ∧ s1 ∈ st.sets) ∨
    (s1.id = sid ∧
      ((∃ e ∈ st.sets, e.id = sid ∧ s1.num_vouchers = e.num_vouchers) ∨
       ((∀ e ∈ st.sets, ¬ e.id = sid) ∧ s1.num_vouchers = 0))) := by
  unfold upsertSet at h
  by_cases ha : st.sets.any (fun s => decide (s.id = sid)) = true
  · rw [if_pos ha] at h
    simp only [List.mem_map] at h
    obtain ⟨e, he, hme⟩ := h
    by_cases hid : e.id = sid
    · rw [if_pos hid] at hme
      subst hme
      exact Or.inr ⟨hid, Or.inl ⟨e, he, hid, rfl⟩⟩
    · rw [if_neg hid] at hme
      subst hme
      exact Or.inl ⟨hid, he⟩
  · rw [if_neg ha] at h
    have hall : ∀ e ∈ st.sets, ¬ e.id = sid := by
      have := List.any_eq_false.mp (Bool.eq_false_iff.mpr ha)
      intro e he
      have := this e he
      simpa using this
    rcases List.mem_append.mp h with h1 | h1
    · exact Or.inl ⟨hall s1 h1, h1⟩
    · rw [List.mem_singleton] at h1
      subst h1
      exact Or.inr ⟨rfl, Or.inr ⟨hall, rfl⟩⟩

theorem save_ok_iff (st : Store) (sid : Nat) (d : VoucherSetFormData) (now : Int) (st1 : Store) :
    voucherSetFormSave st sid d now = .ok st1 ↔ voucherSetSaveBody st sid d now = (st1, none) := by
  unfold voucherSetFormSave
  cases hb : voucherSetSaveBody st sid d now with
  | mk a b =>
    cases b with
    | none => simp
    | some e => simp

theorem saveBody_ok {st : Store} {sid : Nat} {d : VoucherSetFormData} {now : Int} {st1 : Store}
    (h : voucherSetSaveBody st sid d now = (st1, none)) :
    ∃ new,
      st1.vouchers = st.vouchers.map (syncVoucherFields sid d) ++ new ∧
      new.length = d.count - ownedCount st sid ∧
      (∀ w ∈ new, w.voucher_set = some sid ∧ w.name = d.name ∧ w.usage = d.usage ∧
        w.start_datetime = d.start_datetime ∧ w.end_datetime = d.end_datetime ∧
        w.offers = d.offers ∧ w.code.length = d.code_length ∧
        ¬ w.code ∈ st.vouchers.map (fun v => v.code)) ∧
      (new.map (fun v => v.code)).Nodup ∧
      ((0 < d.count - ownedCount st sid ∧
        st1.sets = (upsertSet st sid d).sets.map (fun s =>
          if s.id = sid then { s with num_vouchers := ownedCount st1 sid } else s)) ∨
       (d.count - ownedCount st sid = 0 ∧ st1.sets = (upsertSet st sid d).sets)) := by
  have hOC : ownedCount (updateSetVouchers (upsertSet st sid d) sid d) sid = ownedCount st sid := by
    rw [ownedCount_updateSetVouchers, ownedCount_upsertSet]
  have hVA : (updateSetVouchers (upsertSet st sid d) sid d).vouchers =
      st.vouchers.map (syncVoucherFields sid d) := by
    rw [vouchers_updateSetVouchers, vouchers_upsertSet]
  have hCA : (updateSetVouchers (upsertSet st sid d) sid d).vouchers.map (fun v => v.code) =
      st.vouchers.map (fun v => v.code) := by
    rw [map_code_updateSetVouchers, vouchers_upsertSet]
  have hSA : (updateSetVouchers (upsertSet st sid d) sid d).sets = (upsertSet st sid d).sets :=
    sets_updateSetVouchers _ _ _
  simp only [voucherSetSaveBody] at h
  rw [hOC] at h
  cases hc : createVouchers sid d now (d.count - ownedCount st sid)
      (updateSetVouchers (upsertSet st sid d) sid d) with
  | mk st2 o =>
    rw [hc] at h
    cases o with
    | some e => simp at h
    | none =>
      dsimp only at h
      obtain ⟨hsets2, new, hv2, hlen2, hprops2, hnd2⟩ :=
        createVouchers_ok sid d now _ _ _ hc
      rw [hVA] at hv2
      rw [hCA] at hprops2
      rw [hSA] at hsets2
      by_cases hpos : 0 < d.count - ownedCount st sid
      · rw [if_pos hpos] at h
        simp only [Prod.mk.injEq] at h
        obtain ⟨h1, -⟩ := h
        subst h1
        refine ⟨new, hv2, hlen2, hprops2, hnd2, Or.inl ⟨hpos, ?_⟩⟩
        rw [sets_update_count, ownedCount_update_count st2 sid sid, hsets2]
      · rw [if_neg hpos] at h
        simp only [Prod.mk.injEq] at h
        obtain ⟨h1, -⟩ := h
        subst h1
        exact ⟨new, hv2, hlen2, hprops2, hnd2, Or.inr ⟨Nat.eq_zero_of_not_pos hpos, hsets2⟩⟩

/-! ### Claim theorems: voucher set synchronization -/

/-- C1: for a voucher set currently owning M child vouchers (with M not
above the stored count field, as in every state the operations of this
subsystem produce), submitting the set form with a desired count strictly
below M fails with CountDecrease and the whole store, in particular all M
vouchers and the num_vouchers field of the set, is left unchanged. -/
theorem countDecrease_rejected (st : Store) (p : Nat) (s : VoucherSet)
    (d : VoucherSetFormData) (now : Int)
    (hfind : st.sets.find? (fun x => decide (x.id = p)) = some s)
    (hM : ownedCount st p ≤ s.count)
    (hlt : d.count < ownedCount st p) :
    voucherSetFormSubmit st (some p) d now = .error .countDecrease ∧
    observableAfter (voucherSetFormSubmit st (some p) d now) st = st := by
  have hcc : clean_count st (some p) d.count = some .countDecrease := by
    simp only [clean_count, hfind]
    rw [if_pos (lt_of_lt_of_le hlt hM)]
  have hs : voucherSetFormSubmit st (some p) d now = .error .countDecrease := by
    unfold voucherSetFormSubmit
    rw [hcc]
  exact ⟨hs, by rw [hs]; rfl⟩

def mkVoucher (i : Nat) (nm cd : String) (s e dc : Int) (vs : Option Nat) : Voucher :=
  { id := i, name := nm, code := cd, usage := "Single use", start_datetime := s,
    end_datetime := e, date_created := dc, voucher_set := vs, offers := [],
    num_basket_additions := 0, num_orders := 0 }

def c1Store : Store :=
  { vouchers := [mkVoucher 1 "Spring 1" "AAAA" 0 5 1 (some 7),
                 mkVoucher 2 "Spring 2" "BBBB" 0 5 1 (some 7)],
    sets := [{ id := 7, name := "Spring", code_length := 4, description := "",
               start_datetime := 0, end_datetime := 5, count := 2, num_vouchers := 2 }],
    next_id := 3, next_set_id := 8 }

def c1Data : VoucherSetFormData :=
  { name := "Spring", code_length := 4, description := "", start_datetime := 0,
    end_datetime := 5, count := 1, usage := "Single use", offers := [] }

theorem countDecrease_rejected_witness :
    voucherSetFormSubmit c1Store (some 7) c1Data 0 = .error .countDecrease ∧
    observableAfter (voucherSetFormSubmit c1Store (some 7) c1Data 0) c1Store = c1Store :=
  countDecrease_rejected c1Store 7
    ⟨7, "Spring", 4, "", 0, 5, 2, 2⟩ c1Data 0 (by decide) (by decide) (by decide)

/-- C2: saving a voucher set with desired count N while it owns M < N
vouchers creates exactly N - M new vouchers, each with a fresh unique code
of length code_length, the name, usage, date range and offers of the set
and a back-reference to it, so that the set owns exactly N vouchers and
its num_vouchers field equals N afterwards. -/
theorem syncCreatesMissingVouchers (st : Store) (sid : Nat) (d : VoucherSetFormData)
    (now : Int) (st1 : Store)
    (hM : ownedCount st sid < d.count)
    (hsave : voucherSetFormSave st sid d now = .ok st1) :
    ownedCount st1 sid = d.count ∧
    (∃ s1 ∈ st1.sets, s1.id = sid) ∧
    (∀ s1 ∈ st1.sets, s1.id = sid → s1.num_vouchers = d.count) ∧
    ∃ new,
      st1.vouchers = st.vouchers.map (syncVoucherFields sid d) ++ new ∧
      new.length = d.count - ownedCount st sid ∧
      (∀ w ∈ new, w.voucher_set = some sid ∧ w.name = d.name ∧ w.usage = d.usage ∧
        w.start_datetime = d.start_datetime ∧ w.end_datetime = d.end_datetime ∧
        w.offers = d.offers ∧ w.code.length = d.code_length ∧
        ¬ w.code ∈ st.vouchers.map (fun v => v.code)) ∧
      (new.map (fun v => v.code)).Nodup := by
  obtain ⟨new, hv, hlen, hprops, hnd, hbr⟩ := saveBody_ok ((save_ok_iff st sid d now st1).mp hsave)
  have hcnt_new : new.countP (fun v => decide (v.voucher_set = some sid)) = new.length :=
    List.countP_eq_length.mpr (fun w hw => by simp [(hprops w hw).1])
  have hcnt_map : (st.vouchers.map (syncVoucherFields sid d)).countP
      (fun v => decide (v.voucher_set = some sid)) = ownedCount st sid := by
    rw [List.countP_map]
    exact List.countP_congr (fun v _ => by simp [Function.comp, syncVoucherFields_voucher_set])
  have h1 : ownedCount st1 sid = d.count := by
    unfold ownedCount
    rw [hv, List.countP_append, hcnt_map, hcnt_new, hlen]
    omega
  rcases hbr with ⟨-, hsets⟩ | ⟨hz, -⟩
  · refine ⟨h1, ?_, ?_, new, hv, hlen, hprops, hnd⟩
    · obtain ⟨s0, hs0, hid⟩ := exists_set_upsertSet st sid d
      refine ⟨_, hsets ▸ List.mem_map.mpr ⟨s0, hs0, rfl⟩, ?_⟩
      rw [if_pos hid]
      exact hid
    · intro s1 hs1 hid1
      rw [hsets] at hs1
      obtain ⟨s0, hs0, hm⟩ := List.mem_map.mp hs1
      by_cases hid0 : s0.id = sid
      · rw [if_pos hid0] at hm
        rw [← hm, ← h1]
      · rw [if_neg hid0] at hm
        exact absurd (hm ▸ hid1) hid0
  · omega

def c2Data : VoucherSetFormData :=
  { name := "Spring", code_length := 1, description := "", start_datetime := 0,
    end_datetime := 10, count := 2, usage := "Single use", offers := [4] }

def c2Store : Store := { vouchers := [], sets := [], next_id := 0, next_set_id := 0 }

theorem syncCreatesMissingVouchers_witness :
    ownedCount (observableAfter (voucherSetFormSave c2Store 7 c2Data 0) c2Store) 7 =
      c2Data.count ∧
    (∀ s1 ∈ (observableAfter (voucherSetFormSave c2Store 7 c2Data 0) c2Store).sets,
      s1.id = 7 → s1.num_vouchers = c2Data.count) :=
  have h := syncCreatesMissingVouchers c2Store 7 c2Data 0
    (observableAfter (voucherSetFormSave c2Store 7 c2Data 0) c2Store) (by decide) (by rfl)
  ⟨h.1, h.2.2.1⟩

/-- C3: for every existing child voucher of the set being saved, a
successful save leaves a voucher with the same id and the same code whose
name, usage, date range and offer associations have been overwritten with
the values of the set form. -/
theorem syncOverwritesExisting (st : Store) (sid : Nat) (d : VoucherSetFormData)
    (now : Int) (st1 : Store) (v : Voucher)
    (hsave : voucherSetFormSave st sid d now = .ok st1)
    (hv : v ∈ st.vouchers) (hown : v.voucher_set = some sid) :
    ∃ w ∈ st1.vouchers, w.id = v.id ∧ w.code = v.code ∧ w.voucher_set = some sid ∧
      w.name = d.name ∧ w.usage = d.usage ∧ w.start_datetime = d.start_datetime ∧
      w.end_datetime = d.end_datetime ∧ w.offers = d.offers := by
  obtain ⟨new, hvv, -, -, -, -⟩ := saveBody_ok ((save_ok_iff st sid d now st1).mp hsave)
  refine ⟨syncVoucherFields sid d v, ?_, ?_⟩
  · rw [hvv]
    exact List.mem_append_left _ (List.mem_map.mpr ⟨v, hv, rfl⟩)
  · unfold syncVoucherFields
    rw [if_pos hown]
    exact ⟨rfl, rfl, hown, rfl, rfl, rfl, rfl, rfl⟩

def c3Store : Store :=
  { vouchers := [mkVoucher 1 "Old name" "AAAA" 0 5 1 (some 7)],
    sets := [{ id := 7, name := "Old name", code_length := 4, description := "",
               start_datetime := 0, end_datetime := 5, count := 1, num_vouchers := 1 }],
    next_id := 2, next_set_id := 8 }

def c3Data : VoucherSetFormData :=
  { name := "New name", code_length := 4, description := "", start_datetime := 2,
    end_datetime := 9, count := 1, usage := "Multi use", offers := [5] }

theorem syncOverwritesExisting_witness :
    ∃ w ∈ (observableAfter (voucherSetFormSave c3Store 7 c3Data 0) c3Store).vouchers,
      w.id = (mkVoucher 1 "Old name" "AAAA" 0 5 1 (some 7)).id ∧
      w.code = (mkVoucher 1 "Old name" "AAAA" 0 5 1 (some 7)).code ∧
      w.voucher_set = some 7 ∧ w.name = c3Data.name ∧ w.usage = c3Data.usage ∧
      w.start_datetime = c3Data.start_datetime ∧ w.end_datetime = c3Data.end_datetime ∧
      w.offers = c3Data.offers :=
  syncOverwritesExisting c3Store 7 c3Data 0
    (observableAfter (voucherSetFormSave c3Store 7 c3Data 0) c3Store)
    (mkVoucher 1 "Old name" "AAAA" 0 5 1 (some 7)) (by rfl) (by decide) (by decide)

/-- C4: the synchronization runs as one all-or-nothing unit: whenever the
save body fails partway through, leaving some writes in its working copy,
the transactional save surfaces the error and the observable store is the
unchanged original, so no voucher update, creation or count refresh from
that synchronization is visible. -/
theorem syncAtomicOnFailure (st : Store) (sid : Nat) (d : VoucherSetFormData) (now : Int)
    (stMid : Store) (e : FormError)
    (hbody : voucherSetSaveBody st sid d now = (stMid, some e)) :
    voucherSetFormSave st sid d now = .error e ∧
    observableAfter (voucherSetFormSave st sid d now) st = st := by
  have h : voucherSetFormSave st sid d now = .error e := by
    unfold voucherSetFormSave
    rw [hbody]
  exact ⟨h, by rw [h]; rfl⟩

def c4Data : VoucherSetFormData :=
  { name := "Tiny", code_length := 0, description := "", start_datetime := 0,
    end_datetime := 10, count := 2, usage := "Single use", offers := [] }

def c4Store : Store := { vouchers := [], sets := [], next_id := 0, next_set_id := 0 }

theorem syncAtomicOnFailure_witness :
    (voucherSetFormSave c4Store 7 c4Data 0 = .error .codeGenerationFailed ∧
     observableAfter (voucherSetFormSave c4Store 7 c4Data 0) c4Store = c4Store) ∧
    ¬ (voucherSetSaveBody c4Store 7 c4Data 0).1 = c4Store :=
  ⟨syncAtomicOnFailure c4Store 7 c4Data 0 (voucherSetSaveBody c4Store 7 c4Data 0).1
      .codeGenerationFailed (by rfl),
    by decide⟩

/-! ### The recount invariant -/

theorem countP_remove_found (p : Voucher → Bool) :
    ∀ (l : List Voucher) (vid : Nat) (v : Voucher),
      l.find? (fun w => decide (w.id = vid)) = some v →
      (l.map (fun w => w.id)).Nodup →
      (l.filter (fun w => !decide (w.id = vid))).countP p
          = l.countP p - (if p v then 1 else 0) ∧
      (if p v then 1 else 0) ≤ l.countP p
  | [], vid, v, hfind, _ => by simp at hfind
  | a :: t, vid, v, hfind, hnd => by
    rw [List.map_cons, List.nodup_cons] at hnd
    by_cases ha : a.id = vid
    · have hva : v = a := by
        rw [List.find?_cons_of_pos _ (by simpa using ha)] at hfind
        exact (Option.some.injEq _ _ ▸ hfind).symm
      subst hva
      have hkeep : t.filter (fun w => !decide (w.id = vid)) = t := by
        refine List.filter_eq_self.mpr (fun w hw => ?_)
        have : ¬ w.id = vid := by
          intro hc
          refine hnd.1 ?_
          rw [ha, ← hc]
          exact List.mem_map.mpr ⟨w, hw, rfl⟩
        simpa using this
      rw [List.filter_cons_of_neg (by simpa using ha), hkeep, List.countP_cons]
      constructor
      · omega
      · omega
    · have hfind1 : t.find? (fun w => decide (w.id = vid)) = some v := by
        rw [List.find?_cons_of_neg _ (by simpa using ha)] at hfind
        exact hfind
      obtain ⟨ih1, ih2⟩ := countP_remove_found p t vid v hfind1 hnd.2
      have hvmem := List.mem_of_find?_eq_some hfind1
      rw [List.filter_cons_of_pos (by simpa using ha), List.countP_cons, List.countP_cons, ih1]
      constructor
      · omega
      · omega

instance (st : Store) : Decidable (countInvariant st) := by
  unfold countInvariant
  infer_instance

/-- C5: the recount invariant (num_vouchers of every set equals the actual
number of vouchers it owns) is preserved by a successful synchronizer save
and by deleting a voucher through the delete view, and deleting a
standalone voucher leaves every set row, in particular every num_vouchers
field, unchanged. -/
theorem recountInvariantMaintained (st : Store) :
    (∀ (sid : Nat) (d : VoucherSetFormData) (now : Int) (st1 : Store),
      countInvariant st →
      ((∃ s1 ∈ st.sets, s1.id = sid) ∨ (∀ v ∈ st.vouchers, ¬ v.voucher_set = some sid)) →
      voucherSetFormSave st sid d now = .ok st1 → countInvariant st1) ∧
    (∀ vid : Nat, countInvariant st → (st.vouchers.map (fun v => v.id)).Nodup →
      countInvariant (voucherDelete st vid)) ∧
    (∀ (vid : Nat) (v : Voucher), st.vouchers.find? (fun w => decide (w.id = vid)) = some v →
      v.voucher_set = none → (voucherDelete st vid).sets = st.sets) := by
  refine ⟨?_, ?_, ?_⟩
  · intro sid d now st1 hinv hfresh hsave
    obtain ⟨new, hv, hlen, hprops, hnd, hbr⟩ :=
      saveBody_ok ((save_ok_iff st sid d now st1).mp hsave)
    have hcnt_map : ∀ x, (st.vouchers.map (syncVoucherFields sid d)).countP
        (fun v => decide (v.voucher_set = some x)) = ownedCount st x := by
      intro x
      rw [List.countP_map]
      exact List.countP_congr (fun v _ => by simp [Function.comp, syncVoucherFields_voucher_set])
    have hcnt_new_ne : ∀ x, ¬ x = sid →
        new.countP (fun v => decide (v.voucher_set = some x)) = 0 := by
      intro x hx
      refine List.countP_eq_zero.mpr (fun w hw => ?_)
      rw [(hprops w hw).1]
      simp
      exact fun hc => hx hc.symm
    have hoc_ne : ∀ x, ¬ x = sid → ownedCount st1 x = ownedCount st x := by
      intro x hx
      unfold ownedCount
      rw [hv, List.countP_append]
      rw [hcnt_map, hcnt_new_ne x hx, Nat.add_zero]
      rfl
    intro s1 hs1
    rcases hbr with ⟨-, hsets⟩ | ⟨hz, hsets⟩
    · rw [hsets] at hs1
      obtain ⟨s0, hs0, hm⟩ := List.mem_map.mp hs1
      by_cases hid0 : s0.id = sid
      · rw [if_pos hid0] at hm
        subst hm
        dsimp only
        rw [hid0]
      · rw [if_neg hid0] at hm
        subst hm
        rcases mem_sets_upsertSet hs0 with ⟨-, hmem⟩ | ⟨hid, -⟩
        · rw [hoc_ne s0.id hid0]
          exact hinv s0 hmem
        · exact absurd hid hid0
    · have hnew_nil : new = [] := List.length_eq_zero.mp (by omega)
      have hoc_all : ∀ x, ownedCount st1 x = ownedCount st x := by
        intro x
        unfold ownedCount
        rw [hv, hnew_nil, List.countP_append, hcnt_map]
        rw [List.countP_nil, Nat.add_zero]
        rfl
      rw [hsets] at hs1
      rcases mem_sets_upsertSet hs1 with ⟨-, hmem⟩ | ⟨hid, hcase⟩
      · rw [hoc_all]
        exact hinv s1 hmem
      · rcases hcase with ⟨e, he, heid, hnum⟩ | ⟨hnone, hnum⟩
        · rw [hoc_all, hid, hnum, ← heid]
          exact hinv e he
        · rcases hfresh with ⟨s2, hs2, hs2id⟩ | horphan
          · exact absurd hs2id (hnone s2 hs2)
          · rw [hoc_all, hid, hnum]
            symm
            exact List.countP_eq_zero.mpr (fun w hw => by simpa using horphan w hw)
  · intro vid hinv hnd
    cases hfind : st.vouchers.find? (fun w => decide (w.id = vid)) with
    | none =>
      unfold voucherDelete
      rw [hfind]
      exact hinv
    | some v =>
      have hremove := fun (p : Voucher → Bool) => countP_remove_found p st.vouchers vid v hfind hnd
      cases hvs : v.voucher_set with
      | some sid =>
        have hdel : voucherDelete st vid = update_count
            { st with vouchers := st.vouchers.filter (fun w => !decide (w.id = vid)) } sid := by
          unfold voucherDelete
          rw [hfind]
          dsimp only
          rw [hvs]
        rw [hdel]
        intro s1 hs1
        rw [sets_update_count] at hs1
        obtain ⟨s0, hs0, hm⟩ := List.mem_map.mp hs1
        by_cases hid0 : s0.id = sid
        · rw [if_pos hid0] at hm
          subst hm
          dsimp only
          rw [ownedCount_update_count, hid0]
        · rw [if_neg hid0] at hm
          subst hm
          have h1 := (hremove (fun w => decide (w.voucher_set = some s0.id))).1
          have hpv : (decide (v.voucher_set = some s0.id)) = false := by
            rw [hvs]
            simp
            exact fun hc => hid0 hc.symm
          have hgoal : ownedCount
              { st with vouchers := st.vouchers.filter (fun w => !decide (w.id = vid)) } s0.id
              = ownedCount st s0.id := by
            unfold ownedCount
            dsimp only
            rw [h1, hpv]
            simp
          rw [ownedCount_update_count, hgoal]
          exact hinv s0 hs0
      | none =>
        have hdel : voucherDelete st vid =
            { st with vouchers := st.vouchers.filter (fun w => !decide (w.id = vid)) } := by
          unfold voucherDelete
          rw [hfind]
          dsimp only
          rw [hvs]
        rw [hdel]
        intro s1 hs1
        have h1 := (hremove (fun w => decide (w.voucher_set = some s1.id))).1
        have hpv : (decide (v.voucher_set = some s1.id)) = false := by
          rw [hvs]
          simp
        have hgoal : ownedCount
            { st with vouchers := st.vouchers.filter (fun w => !decide (w.id = vid)) } s1.id
            = ownedCount st s1.id := by
          unfold ownedCount
          dsimp only
          rw [h1, hpv]
          simp
        rw [hgoal]
        exact hinv s1 hs1
  · intro vid v hfind hnone
    unfold voucherDelete
    rw [hfind]
    dsimp only
    rw [hnone]

def c5Store : Store :=
  { vouchers := [mkVoucher 1 "Spring 1" "AAAA" 0 5 1 (some 7),
                 mkVoucher 2 "Solo" "SOLO" 0 5 1 none],
    sets := [{ id := 7, name := "Spring", code_length := 1, description := "",
               start_datetime := 0, end_datetime := 5, count := 1, num_vouchers := 1 }],
    next_id := 3, next_set_id := 8 }

def c5Data : VoucherSetFormData :=
  { name := "Spring", code_length := 1, description := "", start_datetime := 0,
    end_datetime := 5, count := 2, usage := "Single use", offers := [] }

theorem recountInvariantMaintained_witness :
    countInvariant (observableAfter (voucherSetFormSave c5Store 7 c5Data 0) c5Store) ∧
    countInvariant (voucherDelete c5Store 1) ∧
    (voucherDelete c5Store 2).sets = c5Store.sets :=
  ⟨(recountInvariantMaintained c5Store).1 7 c5Data 0
      (observableAfter (voucherSetFormSave c5Store 7 c5Data 0) c5Store)
      (by decide) (by decide) (by rfl),
   (recountInvariantMaintained c5Store).2.1 1 (by decide) (by decide),
   (recountInvariantMaintained c5Store).2.2 2 (mkVoucher 2 "Solo" "SOLO" 0 5 1 none)
      (by decide) (by rfl)⟩

/-! ### Voucher creation and duplicate validation -/

theorem voucherCreateSubmit_error (st : Store) (name code usage : String)
    (start_datetime end_datetime : Int) (offers : List Nat) (now : Int)
    (h : ¬ voucherFormErrors st none name code start_datetime end_datetime = []) :
    voucherCreateSubmit st name code usage start_datetime end_datetime offers now =
      .error (voucherFormErrors st none name code start_datetime end_datetime) := by
  unfold voucherCreateSubmit
  cases herrs : voucherFormErrors st none name code start_datetime end_datetime with
  | nil => exact absurd herrs h
  | cons a l => rfl

/-- C6: with a sane date range and no voucher already holding the name or
the normalized code, submitting the create form succeeds and stores
exactly one new voucher whose code is the stripped, upper-cased submitted
code; an all-whitespace or empty code makes validation fail with
EmptyCode and no voucher is created. -/
theorem voucherCreateContract (st : Store) (name code usage : String)
    (start_datetime end_datetime : Int) (offers : List Nat) (now : Int) :
    ((¬ end_datetime < start_datetime) →
     ¬ normalize_code code = "" →
     (∀ v ∈ st.vouchers, ¬ v.name = stripString name) →
     (∀ v ∈ st.vouchers, ¬ v.code = normalize_code code) →
     ∃ w : Voucher, w.name = stripString name ∧ w.code = normalize_code code ∧
       w.usage = usage ∧ w.start_datetime = start_datetime ∧
       w.end_datetime = end_datetime ∧ w.voucher_set = none ∧
       voucherCreateSubmit st name code usage start_datetime end_datetime offers now =
         .ok { st with vouchers := st.vouchers ++ [w], next_id := st.next_id + 1 }) ∧
    (stripString code = "" →
     (∃ errs, voucherCreateSubmit st name code usage start_datetime end_datetime offers now =
        .error errs ∧ FormError.emptyCode ∈ errs) ∧
     observableAfter
       (voucherCreateSubmit st name code usage start_datetime end_datetime offers now) st
       = st) := by
  constructor
  · intro hdate hne hn hc
    have hfn : st.vouchers.find? (fun v => decide (v.name = stripString name)) = none :=
      List.find?_eq_none.mpr (fun v hv => by simpa using hn v hv)
    have hname : clean_name st none (stripString name) = none := by
      simp only [clean_name, hfn]
    have hfc : st.vouchers.find? (fun v => decide (v.code = normalize_code code)) = none :=
      List.find?_eq_none.mpr (fun v hv => by simpa using hc v hv)
    have hcode : clean_code st none code = .ok (normalize_code code) := by
      simp only [clean_code, hfc]
      rw [if_neg hne]
    have hdr : clean_date_range start_datetime end_datetime = none := by
      unfold clean_date_range
      rw [if_neg hdate]
    have herrs : voucherFormErrors st none name code start_datetime end_datetime = [] := by
      unfold voucherFormErrors
      rw [hname, hcode, hdr]
      rfl
    refine ⟨⟨st.next_id, stripString name, normalize_code code, usage, start_datetime,
        end_datetime, now, none, offers, 0, 0⟩, rfl, rfl, rfl, rfl, rfl, rfl, ?_⟩
    unfold voucherCreateSubmit
    rw [herrs]
  · intro h
    have hempty : normalize_code code = "" := by
      rw [normalize_code, h]
      rfl
    have hcode : clean_code st none code = .error .emptyCode := by
      simp only [clean_code]
      rw [if_pos hempty]
    have hmem : FormError.emptyCode ∈
        voucherFormErrors st none name code start_datetime end_datetime := by
      unfold voucherFormErrors
      rw [hcode]
      simp
    have hsub := voucherCreateSubmit_error st name code usage start_datetime end_datetime
      offers now (List.ne_nil_of_mem hmem)
    exact ⟨⟨_, hsub, hmem⟩, by rw [hsub]; rfl⟩

def c6Store : Store :=
  { vouchers := [mkVoucher 1 "Taken" "USED" 0 5 1 none],
    sets := [], next_id := 2, next_set_id := 0 }

theorem voucherCreateContract_witness :
    (∃ w : Voucher, w.name = stripString "Fresh" ∧ w.code = normalize_code " ab " ∧
      w.usage = "Single use" ∧ w.start_datetime = 0 ∧ w.end_datetime = 5 ∧
      w.voucher_set = none ∧
      voucherCreateSubmit c6Store "Fresh" " ab " "Single use" 0 5 [] 9 =
        .ok { c6Store with
          vouchers := c6Store.vouchers ++ [w],
          next_id := c6Store.next_id + 1 }) ∧
    ((∃ errs, voucherCreateSubmit c6Store "Fresh" "   " "Single use" 0 5 [] 9 = .error errs ∧
        FormError.emptyCode ∈ errs) ∧
      observableAfter (voucherCreateSubmit c6Store "Fresh" "   " "Single use" 0 5 [] 9) c6Store
        = c6Store) :=
  ⟨(voucherCreateContract c6Store "Fresh" " ab " "Single use" 0 5 [] 9).1
      (by decide) (by decide) (by decide) (by decide),
   (voucherCreateContract c6Store "Fresh" "   " "Single use" 0 5 [] 9).2 (by decide)⟩

/-- C7: creating a voucher under a name already held by another voucher
fails with DuplicateName, creating one whose normalized code is already in
use fails with DuplicateCode, and when editing a voucher a match against
the edited voucher itself (same id) triggers neither failure. -/
theorem voucherDuplicateChecks (st : Store) (name code : String)
    (start_datetime end_datetime : Int) :
    ((∃ v ∈ st.vouchers, v.name = stripString name) →
      FormError.duplicateName ∈
        voucherFormErrors st none name code start_datetime end_datetime) ∧
    (¬ normalize_code code = "" →
     (∃ v ∈ st.vouchers, v.code = normalize_code code) →
      FormError.duplicateCode ∈
        voucherFormErrors st none name code start_datetime end_datetime) ∧
    (∀ eid : Nat,
      (∀ v ∈ st.vouchers, v.name = stripString name → v.id = eid) →
      (∀ v ∈ st.vouchers, v.code = normalize_code code → v.id = eid) →
      ¬ FormError.duplicateName ∈
          voucherFormErrors st (some eid) name code start_datetime end_datetime ∧
      ¬ FormError.duplicateCode ∈
          voucherFormErrors st (some eid) name code start_datetime end_datetime) := by
  have hdr : ∀ x ∈ (clean_date_range start_datetime end_datetime).toList,
      x = FormError.invalidDateRange := by
    unfold clean_date_range
    split <;> simp
  refine ⟨?_, ?_, ?_⟩
  · rintro ⟨v, hv, hvname⟩
    cases hf : st.vouchers.find? (fun w => decide (w.name = stripString name)) with
    | none => exact absurd (by simpa using List.find?_eq_none.mp hf v hv) (by simpa using hvname)
    | some w =>
      have hname : clean_name st none (stripString name) = some .duplicateName := by
        simp only [clean_name, hf]
      unfold voucherFormErrors
      rw [hname]
      simp
  · rintro hne ⟨v, hv, hvcode⟩
    cases hf : st.vouchers.find? (fun w => decide (w.code = normalize_code code)) with
    | none => exact absurd (by simpa using List.find?_eq_none.mp hf v hv) (by simpa using hvcode)
    | some w =>
      have hcode : clean_code st none code = .error .duplicateCode := by
        simp only [clean_code, hf]
        rw [if_neg hne]
      unfold voucherFormErrors
      rw [hcode]
      simp
  · intro eid hnm hcd
    have hname : clean_name st (some eid) (stripString name) = none := by
      cases hf : st.vouchers.find? (fun w => decide (w.name = stripString name)) with
      | none => simp only [clean_name, hf]
      | some w =>
        have hw := List.mem_of_find?_eq_some hf
        have hwp := List.find?_some hf
        simp only [decide_eq_true_eq] at hwp
        simp only [clean_name, hf]
        rw [if_pos (hnm w hw hwp)]
    have hcode_cases : clean_code st (some eid) code = .error .emptyCode ∨
        ∃ r, clean_code st (some eid) code = .ok r := by
      by_cases hne : normalize_code code = ""
      · left
        simp only [clean_code]
        rw [if_pos hne]
      · right
        cases hf : st.vouchers.find? (fun w => decide (w.code = normalize_code code)) with
        | none =>
          refine ⟨normalize_code code, ?_⟩
          simp only [clean_code, hf]
          rw [if_neg hne]
        | some w =>
          have hw := List.mem_of_find?_eq_some hf
          have hwp := List.find?_some hf
          simp only [decide_eq_true_eq] at hwp
          refine ⟨normalize_code code, ?_⟩
          simp only [clean_code, hf]
          rw [if_neg hne, if_pos (hcd w hw hwp)]
    have hsub : ∀ x ∈ voucherFormErrors st (some eid) name code start_datetime end_datetime,
        x = FormError.emptyCode ∨ x = FormError.invalidDateRange := by
      intro x hx
      unfold voucherFormErrors at hx
      rw [hname] at hx
      rcases List.mem_append.mp hx with h1 | h2
      · rcases List.mem_append.mp h1 with h3 | h4
        · simp at h3
        · rcases hcode_cases with hcc | ⟨r, hcc⟩ <;> rw [hcc] at h4
          · simp at h4
            exact Or.inl h4
          · simp at h4
      · exact Or.inr (hdr x h2)
    refine ⟨fun hmem => ?_, fun hmem => ?_⟩
    · rcases hsub _ hmem with h | h <;> simp at h
    · rcases hsub _ hmem with h | h <;> simp at h

def c7Store : Store :=
  { vouchers := [mkVoucher 1 "Taken" "USED" 0 5 1 none],
    sets := [], next_id := 2, next_set_id := 0 }

theorem voucherDuplicateChecks_witness :
    FormError.duplicateName ∈ voucherFormErrors c7Store none "Taken" "NEW" 0 5 ∧
    FormError.duplicateCode ∈ voucherFormErrors c7Store none "Other" " used " 0 5 ∧
    (¬ FormError.duplicateName ∈ voucherFormErrors c7Store (some 1) "Taken" " used " 0 5 ∧
     ¬ FormError.duplicateCode ∈ voucherFormErrors c7Store (some 1) "Taken" " used " 0 5) :=
  ⟨(voucherDuplicateChecks c7Store "Taken" "NEW" 0 5).1 (by decide),
   (voucherDuplicateChecks c7Store "Other" " used " 0 5).2.1 (by decide) (by decide),
   (voucherDuplicateChecks c7Store "Taken" " used " 0 5).2.2 1 (by decide) (by decide)⟩

/-! ### The voucher list view -/

/-- C8: on the voucher list with only the is_active filter set, true
selects exactly the vouchers with start_datetime <= now <= end_datetime
and false selects exactly the vouchers with end_datetime < now. -/
theorem isActiveFilterSemantics (st : Store) (now : Int) (v : Voucher) :
    (v ∈ voucherListQueryset st ⟨true, "", "", some true, none, none⟩ now ↔
      v ∈ st.vouchers ∧ v.start_datetime ≤ now ∧ now ≤ v.end_datetime) ∧
    (v ∈ voucherListQueryset st ⟨true, "", "", some false, none, none⟩ now ↔
      v ∈ st.vouchers ∧ v.end_datetime < now) := by
  have hstrip : stripString "" = "" := rfl
  have hupper : upperString "" = "" := rfl
  constructor
  · simp [voucherListQueryset, hstrip, hupper, sort_queryset, List.mem_filter,
      List.mem_insertionSort, and_assoc]
  · simp [voucherListQueryset, hstrip, hupper, sort_queryset, List.mem_filter,
      List.mem_insertionSort, and_assoc]

def c9Store : Store :=
  { vouchers := [mkVoucher 1 "Alpha" "A1" 0 5 1 none, mkVoucher 2 "Beta" "B2" 0 5 2 none],
    sets := [], next_id := 3, next_set_id := 0 }

def c9Req : VoucherListRequest :=
  { hasParams := true, name := "Alpha", code := "", is_active := none, in_set := none,
    sort := some "bogus" }

/-- C9 counterexample: a request with a sort key outside the allow-list
and a name filter does NOT return the unfiltered result set: the name
filter still applies, so a voucher outside the filter is missing from the
result even though the sort key was invalid. -/
theorem invalidSortStillFilters_cex :
    c9Req.hasParams = true ∧ c9Req.sort = some "bogus" ∧
    ¬ "bogus" ∈ voucherSortFields ∧
    mkVoucher 2 "Beta" "B2" 0 5 2 none ∈ c9Store.vouchers ∧
    ¬ mkVoucher 2 "Beta" "B2" 0 5 2 none ∈ voucherListQueryset c9Store c9Req 3 := by
  decide

/-- C9 (amended): the voucher list request always succeeds, and a supplied
sort key outside the allow-list makes only the ordering fall back to the
default descending-creation-time order: the result is exactly that of the
same request without a sort parameter, with the validated filters still
applied. -/
theorem invalidSortFallsBackToDefaultOrder (st : Store) (req : VoucherListRequest)
    (now : Int) (k : String) (hk : req.sort = some k) (hnk : ¬ k ∈ voucherSortFields) :
    voucherListQueryset st req now =
      voucherListQueryset st { req with sort := none } now := by
  have hsq : ∀ l : List Voucher, sort_queryset l (some k) = sort_queryset l none := by
    intro l
    unfold sort_queryset
    dsimp only
    rw [if_neg (by simpa using hnk)]
  unfold voucherListQueryset
  rw [hk, hsq]

def c9wReq : VoucherListRequest :=
  { hasParams := true, name := "", code := "", is_active := none, in_set := none,
    sort := some "garbage" }

theorem invalidSortFallsBackToDefaultOrder_witness :
    voucherListQueryset c9Store c9wReq 3 =
      voucherListQueryset c9Store { c9wReq with sort := none } 3 :=
  invalidSortFallsBackToDefaultOrder c9Store c9wReq 3 "garbage" (by decide) (by decide)

/-- C10: with no query parameters at all, the voucher list contains
exactly the vouchers that belong to no voucher set, in descending
creation-time order, rather than the full voucher collection. -/
theorem noParamsListsSetlessVouchers (st : Store) (now : Int) :
    (∀ v : Voucher, v ∈ voucherListQueryset st ⟨false, "", "", none, none, none⟩ now ↔
      v ∈ st.vouchers ∧ v.voucher_set = none) ∧
    (voucherListQueryset st ⟨false, "", "", none, none, none⟩ now).Pairwise
      (fun a b => b.date_created ≤ a.date_created) := by
  constructor
  · intro v
    simp [voucherListQueryset, sort_queryset, List.mem_filter, List.mem_insertionSort,
      Option.isNone_iff_eq_none]
  · have hs := List.sorted_insertionSort (voucherGE "date_created")
      (List.insertionSort (voucherGE "date_created") st.vouchers)
    have hq : voucherListQueryset st ⟨false, "", "", none, none, none⟩ now =
        (List.insertionSort (voucherGE "date_created")
          (List.insertionSort (voucherGE "date_created") st.vouchers)).filter
          (fun v => v.voucher_set.isNone) := by
      simp [voucherListQueryset, sort_queryset]
    rw [hq]
    refine List.Pairwise.imp ?_ (List.Pairwise.filter _ hs)
    intro a b hab
    exact hab
